import Mathlib

/-!
The face-detection handler of faas-pigo.

A shallow embedding of `function/handler.go`: the annotator `DrawFaces`, the
detector wrapper `DetectFaces`, the request guard `verifyRequest` and the
orchestrator `Handle`, with the file system as an explicit set of paths and
the results of the external calls (multipart parsing, temp-file creation,
copying, the pigo classifier, the JPEG round trip, the clock) supplied as
inputs.
-/

namespace FaasPigo

/-! ## Go machine integers -/

/-- Reduction of a mathematical integer to the range of Go's `int`
(64-bit two's complement, as on amd64): arithmetic on `int` wraps around. -/
def wrapInt (x : Int) : Int := (x + 2 ^ 63) % 2 ^ 64 - 2 ^ 63

/-- Go's `a - b` on `int`. -/
def goSub (a b : Int) : Int := wrapInt (a - b)

/-- Go's `a / b` on `int`: the quotient truncated toward zero. -/
def goDiv (a b : Int) : Int := wrapInt (Int.tdiv a b)

/-! ## Go `float32` comparison -/

/-- A `float32` value as far as ordering is concerned: a finite value (every
finite `float32` is a rational number), an infinity, or NaN. -/
inductive F32 where
  | finite (v : ℚ)
  | posInf
  | negInf
  | nan
  deriving DecidableEq

/-- Go's `a > b` on `float32`: false as soon as one side is NaN. -/
def F32.gt : F32 → F32 → Bool
  | .nan, _ => false
  | _, .nan => false
  | .posInf, .posInf => false
  | .posInf, _ => true
  | .negInf, _ => false
  | .finite _, .posInf => false
  | .finite _, .negInf => true
  | .finite a, .finite b => decide (b < a)

/-! ## The `image` package: points and rectangles -/

namespace image

/-- Go's `image.Point`. -/
structure Point where
  X : Int
  Y : Int
  deriving DecidableEq, Repr

/-- Go's `image.Rectangle`. -/
structure Rectangle where
  Min : Point
  Max : Point
  deriving DecidableEq, Repr

/-- Go's `image.Rect(x0, y0, x1, y1)`: the rectangle with those corners, the
coordinates of each axis swapped when they come in the wrong order. -/
def Rect (x0 y0 x1 y1 : Int) : Rectangle :=
  let (x0, x1) := if x0 > x1 then (x1, x0) else (x0, x1)
  let (y0, y1) := if y0 > y1 then (y1, y0) else (y0, y1)
  ⟨⟨x0, y0⟩, ⟨x1, y1⟩⟩

end image

/-- One candidate face, pigo's `Detection`: centre row and column, window
size and detection score. -/
structure Detection where
  Row : Int
  Col : Int
  Scale : Int
  Q : F32
  deriving DecidableEq

/-! ## The file system -/

/-- The names of the files the handler can touch. `upload s` is the path
`/tmp/image` followed by the random suffix `s` that `ioutil.TempFile("/tmp",
"image")` picks, `annotated n` is the path `/tmp/<n>.jpg` that `DrawFaces`
builds from the clock reading `n`, and `other` is any other file. -/
inductive Path where
  | upload (suffix : String)
  | annotated (nanos : Int)
  | other (name : String)
  deriving DecidableEq, Repr

/-- The set of files present on the file system. -/
abbrev Files := List Path

/-- Creating (or opening with `O_CREATE`) the file `p`. -/
def Files.create (p : Path) (fs : Files) : Files :=
  if p ∈ fs then fs else p :: fs

/-- Go's `os.Remove(p)`. -/
def Files.remove (p : Path) (fs : Files) : Files :=
  fs.filter (fun q => q ≠ p)

/-! ## The annotator -/

/-- What the handler asks the drawing context to stroke; the integers are the
values converted to `float64` at the call. -/
inductive Shape where
  | arc (x y r : Int)
  | rectangle (x y w h : Int)
  deriving DecidableEq, Repr

/-- The confidence threshold `qThresh` of `DrawFaces`. -/
def qThresh : F32 := .finite 5

/-- The rectangle `DrawFaces` appends for `face`: the expression
`image.Rect(face.Col-face.Scale/2, face.Row-face.Scale/2, face.Scale, face.Scale)`. -/
def faceRect (face : Detection) : image.Rectangle :=
  image.Rect (goSub face.Col (goDiv face.Scale 2)) (goSub face.Row (goDiv face.Scale 2))
    face.Scale face.Scale

/-- The `for _, face := range faces` loop of `DrawFaces`, threading the slice
`rects` and the shapes stroked on the drawing context. -/
def drawLoop (isCircle : Bool) :
    List Detection → List image.Rectangle × List Shape → List image.Rectangle × List Shape
  | [], acc => acc
  | face :: rest, (rects, strokes) =>
    if F32.gt face.Q qThresh then
      let shape :=
        if isCircle then
          Shape.arc face.Col face.Row (goDiv face.Scale 2)
        else
          Shape.rectangle (goSub face.Col (goDiv face.Scale 2))
            (goSub face.Row (goDiv face.Scale 2)) face.Scale face.Scale
      drawLoop isCircle rest (rects ++ [faceRect face], strokes ++ [shape])
    else
      drawLoop isCircle rest (rects, strokes)

/-- What the environment does during one call of `DrawFaces`: the reading of
`time.Now().UnixNano()`, whether `os.OpenFile` succeeds and whether
`ioutil.ReadFile` succeeds. -/
structure DrawEnv where
  nanos : Int
  openOk : Bool
  readOk : Bool
  deriving DecidableEq, Repr

/-- The outcome of `DrawFaces`: the returned rectangles, whether the returned
error is non-nil, the file set after the call (its deferred `os.Remove`
included), the shapes stroked and, as a ghost record, the files the call
created. The encoded image bytes are left out. -/
structure DrawOut where
  rects : List image.Rectangle
  err : Bool
  fs : Files
  strokes : List Shape
  created : List Path
  deriving DecidableEq, Repr

/-- The method `(*FaceDetector).DrawFaces`. -/
def DrawFaces (fs : Files) (env : DrawEnv) (faces : List Detection) (isCircle : Bool) :
    DrawOut :=
  let (rects, strokes) := drawLoop isCircle faces ([], [])
  let filename := Path.annotated env.nanos
  if !env.openOk then
    ⟨[], true, fs, strokes, []⟩
  else
    let fs := Files.create filename fs
    ⟨rects, !env.readOk, Files.remove filename fs, strokes, [filename]⟩

/-! ## The detector wrapper -/

/-- What the environment does during one call of `DetectFaces`: whether
`pigo.GetImage` decodes the file, whether the cascade file can be read,
whether `Unpack` accepts it, and the detections the classifier returns after
clustering. -/
structure DetectEnv where
  imageOk : Bool
  cascadeOk : Bool
  unpackOk : Bool
  faces : List Detection
  deriving DecidableEq

/-- The method `(*FaceDetector).DetectFaces`: `none` is a non-nil error. -/
def DetectFaces (env : DetectEnv) : Option (List Detection) :=
  if !env.imageOk then none
  else if !env.cascadeOk then none
  else if !env.unpackOk then none
  else some env.faces

/-! ## The request and the response -/

/-- One entry of the multipart file map (a `*multipart.FileHeader`) together
with what the environment does while `Handle` processes it: whether
`h.Open()` succeeds, the suffix of the file `ioutil.TempFile` creates (`none`
when it fails), whether `io.Copy` succeeds, the detector and annotator
environments, and the reading of `time.Since(start).String()`. -/
structure Upload where
  Filename : String
  openOk : Bool
  tempFile : Option String
  copyOk : Bool
  detect : DetectEnv
  draw : DrawEnv
  elapsed : String
  deriving DecidableEq

/-- Go's `multipart.Form`, its file map only: `none` is the nil map. -/
structure Form where
  File : Option (List (String × List Upload))

/-- The request as `Handle` sees it: the error `r.ParseMultipartForm` returns,
the field `r.MultipartForm` afterwards (`none` is nil), the reading of
`time.Since(begin).String()` and the error `json.Marshal` returns. -/
structure Request where
  parseErr : Option String
  MultipartForm : Option Form
  totalTime : String
  marshalErr : Option String

/-- The struct `DetectionResult`. -/
structure DetectionResult where
  ImageName : String
  TotalFaces : Int
  Faces : List image.Rectangle
  Time : String
  deriving DecidableEq, Repr

/-- The struct `Result`. -/
structure Result where
  Status : String
  TotalTime : String
  TotalImages : Int
  Data : List DetectionResult
  deriving DecidableEq, Repr

/-- The body written to the response: the message handed to `http.Error`
(which writes it as plain text, followed by a newline) or the JSON encoding of
a `Result`. -/
inductive Body where
  | text (msg : String)
  | json (result : Result)
  deriving DecidableEq, Repr

/-- The response: status code and body. -/
structure Response where
  status : Nat
  body : Body
  deriving DecidableEq, Repr

def StatusOK : Nat := 200
def StatusBadRequest : Nat := 400
def StatusInternalServerError : Nat := 500

/-- Lookup in a Go map: `none` when the map is nil or lacks the key. -/
def mapLookup (m : Option (List (String × List Upload))) (key : String) :
    Option (List Upload) :=
  match m with
  | none => none
  | some kvs => kvs.lookup key

/-- The function `verifyRequest`, on the form `r.MultipartForm` points to:
`some msg` is the error, `none` is nil. -/
def verifyRequest (form : Form) : Option String :=
  match mapLookup form.File "image" with
  | none => some "No image uploaded. Please try again"
  | some _ => none

/-! ## The orchestrator -/

/-- A call deferred by `Handle`. -/
inductive Deferred where
  | closeFile (name : String)
  | removeFile (p : Path)
  deriving DecidableEq, Repr

/-- Running the deferred calls, the most recently deferred first. -/
def runDeferred : List Deferred → Files → Files
  | [], fs => fs
  | .closeFile _ :: ds, fs => runDeferred ds fs
  | .removeFile p :: ds, fs => runDeferred ds (Files.remove p fs)

/-- The variables of `Handle` while its loop runs: the file set, the stack of
deferred calls (most recent first), `outcome`, `numImages`, and as ghost
records, for every iteration started, the entry's name with the file set at
that moment, and the files created so far, in order. -/
structure LoopState where
  fs : Files
  deferred : List Deferred
  outcome : List DetectionResult
  numImages : Int
  trace : List (String × Files)
  created : List Path

/-- The loop `for _, h := range r.MultipartForm.File["image"]` of `Handle`.
The first component is the response of an early `return`, `none` when the loop
runs to its end. -/
def handleLoop : List Upload → LoopState → Option Response × LoopState
  | [], st => (none, st)
  | h :: rest, st =>
    let st := { st with trace := st.trace ++ [(h.Filename, st.fs)] }
    if !h.openOk then
      (some ⟨StatusBadRequest, .text "Failed to get media form file"⟩, st)
    else
      let st := { st with deferred := .closeFile h.Filename :: st.deferred }
      match h.tempFile with
      | none => (some ⟨StatusInternalServerError, .text "Unable to create temp file"⟩, st)
      | some suffix =>
        let tmpfile := Path.upload suffix
        let st :=
          { st with fs := Files.create tmpfile st.fs, created := st.created ++ [tmpfile] }
        if !h.copyOk then
          (some ⟨StatusInternalServerError, .text "Unable to copy file to tmp folder"⟩, st)
        else
          let st := { st with deferred := .removeFile tmpfile :: st.deferred }
          match DetectFaces h.detect with
          | none => (some ⟨StatusInternalServerError, .text "Error on face detection"⟩, st)
          | some faces =>
            let drawn := DrawFaces st.fs h.draw faces false
            let st := { st with fs := drawn.fs, created := st.created ++ drawn.created }
            if drawn.err then
              (some ⟨StatusInternalServerError, .text "Error creating image output"⟩, st)
            else
              let resp : DetectionResult :=
                ⟨h.Filename, drawn.rects.length, drawn.rects, h.elapsed⟩
              handleLoop rest
                { st with numImages := st.numImages + 1, outcome := st.outcome ++ [resp] }

/-- What `Handle` leaves behind: the response, the file set once it has
returned, and the ghost records of the iterations it started and of the files
created during the call. -/
structure HandleOut where
  resp : Response
  fs : Files
  trace : List (String × Files)
  created : List Path

/-- The function `Handle`, started on the file set `fs`. -/
def Handle (r : Request) (fs : Files) : HandleOut :=
  match r.parseErr with
  | some msg => ⟨⟨StatusBadRequest, .text msg⟩, fs, [], []⟩
  | none =>
    match r.MultipartForm with
    | none => ⟨⟨StatusBadRequest, .text "Expecting multipart form file"⟩, fs, [], []⟩
    | some form =>
      match form.File with
      | none => ⟨⟨StatusBadRequest, .text "Expecting multipart form file"⟩, fs, [], []⟩
      | some _ =>
        match verifyRequest form with
        | some msg => ⟨⟨StatusBadRequest, .text msg⟩, fs, [], []⟩
        | none =>
          let (early, st) :=
            handleLoop ((mapLookup form.File "image").getD []) ⟨fs, [], [], 0, [], []⟩
          let fs := runDeferred st.deferred st.fs
          match early with
          | some resp => ⟨resp, fs, st.trace, st.created⟩
          | none =>
            match r.marshalErr with
            | some msg =>
              ⟨⟨StatusInternalServerError, .text ("Error encoding output: " ++ msg)⟩, fs,
                st.trace, st.created⟩
            | none =>
              ⟨⟨StatusOK, .json ⟨"success", r.totalTime, st.numImages, st.outcome⟩⟩, fs,
                st.trace, st.created⟩

/-! ## Sample inputs -/

/-- An upload for which every stage succeeds. -/
def sampleUpload (name suffix : String) (nanos : Int) (faces : List Detection) : Upload :=
  ⟨name, true, some suffix, true, ⟨true, true, true, faces⟩, ⟨nanos, true, true⟩, "1ms"⟩

/-- A parsed request whose file map holds the given entries under `image`. -/
def sampleRequest (us : List Upload) : Request :=
  ⟨none, some ⟨some [("image", us)]⟩, "2ms", none⟩

/-- A batch of three entries: the second one cannot be copied to its temp
file. -/
def brokenBatch : List Upload :=
  [sampleUpload "a.jpg" "1" 7 [⟨100, 100, 20, .finite 10⟩],
    ⟨"b.jpg", true, some "2", false, ⟨true, true, true, []⟩, ⟨8, true, true⟩, "1ms"⟩,
    sampleUpload "c.jpg" "3" 9 []]

/-- Three detections, none above the threshold. -/
def quietFaces : List Detection :=
  [⟨10, 30, 20, .finite 5⟩, ⟨5, 5, 8, .finite 1⟩, ⟨7, 7, 9, .nan⟩]

/-- Two uploads for which every stage succeeds, one face in the first. -/
def twoUploads : List Upload :=
  [sampleUpload "a.jpg" "1" 7 [⟨100, 100, 20, .finite 10⟩], sampleUpload "b.jpg" "2" 8 []]


/-- The detections the loop of `DrawFaces` keeps. -/
def aboveThreshold (faces : List Detection) : List Detection :=
  faces.filter (fun face => F32.gt face.Q qThresh)

/-! ## Auxiliary notions for the statements -/

/-- Every stage of the loop body of `Handle` succeeds for the entry `h`. -/
def Upload.succeeds (h : Upload) : Bool :=
  h.openOk && h.tempFile.isSome && h.copyOk && (DetectFaces h.detect).isSome &&
    h.draw.openOk && h.draw.readOk

/-- The temp file `Handle` creates for the entry `h` (when `ioutil.TempFile`
succeeds). -/
def Upload.tmpfile (h : Upload) : Path :=
  .upload (h.tempFile.getD "")

/-- The file `DrawFaces` creates for the entry `h`. -/
def Upload.jpgfile (h : Upload) : Path :=
  .annotated h.draw.nanos

/-- The `DetectionResult` of an entry for which every stage succeeds. -/
def Upload.result (h : Upload) : DetectionResult :=
  ⟨h.Filename, ((aboveThreshold h.detect.faces).map faceRect).length,
    (aboveThreshold h.detect.faces).map faceRect, h.elapsed⟩

/-- The messages of the `http.Error` calls inside the loop of `Handle`. -/
def failureMessages : List String :=
  ["Failed to get media form file", "Unable to create temp file",
    "Unable to copy file to tmp folder", "Error on face detection",
    "Error creating image output"]

/-- Every file created so far is either scheduled for removal by a deferred
call or a file of `DrawFaces` that is already gone. -/
def Cleaned (created : List Path) (deferred : List Deferred) (fs : Files) : Prop :=
  ∀ p ∈ created, Deferred.removeFile p ∈ deferred ∨ ((∃ n, p = .annotated n) ∧ p ∉ fs)

/-- The loop state after an iteration in which every stage succeeds. -/
def stepOk (st : LoopState) (h : Upload) : LoopState :=
  ⟨Files.remove h.jpgfile (Files.create h.jpgfile (Files.create h.tmpfile st.fs)),
    .removeFile h.tmpfile :: .closeFile h.Filename :: st.deferred,
    st.outcome ++ [h.result],
    st.numImages + 1,
    st.trace ++ [(h.Filename, st.fs)],
    st.created ++ [h.tmpfile, h.jpgfile]⟩

/-! ## The annotator: lemmas -/

theorem drawLoop_rects (isCircle : Bool) (faces : List Detection)
    (acc : List image.Rectangle × List Shape) :
    (drawLoop isCircle faces acc).1 = acc.1 ++ (aboveThreshold faces).map faceRect := by
  induction faces generalizing acc with
  | nil => simp [drawLoop, aboveThreshold]
  | cons face rest ih =>
    obtain ⟨rects, strokes⟩ := acc
    by_cases hq : F32.gt face.Q qThresh = true
    · simp [drawLoop, hq, ih, aboveThreshold]
    · simp [drawLoop, hq, ih, aboveThreshold]

theorem DrawFaces_rects (fs : Files) (env : DrawEnv) (faces : List Detection)
    (isCircle : Bool) :
    (DrawFaces fs env faces isCircle).rects =
      if env.openOk then (aboveThreshold faces).map faceRect else [] := by
  cases hopen : env.openOk <;> simp [DrawFaces, hopen, drawLoop_rects]

theorem DrawFaces_err (fs : Files) (env : DrawEnv) (faces : List Detection)
    (isCircle : Bool) :
    (DrawFaces fs env faces isCircle).err = !(env.openOk && env.readOk) := by
  cases hopen : env.openOk <;> simp [DrawFaces, hopen]

theorem DrawFaces_created (fs : Files) (env : DrawEnv) (faces : List Detection)
    (isCircle : Bool) :
    (DrawFaces fs env faces isCircle).created =
      if env.openOk then [.annotated env.nanos] else [] := by
  cases hopen : env.openOk <;> simp [DrawFaces, hopen]

theorem DrawFaces_fs (fs : Files) (env : DrawEnv) (faces : List Detection)
    (isCircle : Bool) :
    (DrawFaces fs env faces isCircle).fs =
      if env.openOk then
        Files.remove (.annotated env.nanos) (Files.create (.annotated env.nanos) fs)
      else fs := by
  cases hopen : env.openOk <;> simp [DrawFaces, hopen]

theorem Rect_Min_X (x0 y0 x1 y1 : Int) : (image.Rect x0 y0 x1 y1).Min.X = min x0 x1 := by
  unfold image.Rect
  by_cases h : x0 > x1 <;> by_cases h2 : y0 > y1 <;> simp [h, h2] <;> omega

theorem Rect_Max_X (x0 y0 x1 y1 : Int) : (image.Rect x0 y0 x1 y1).Max.X = max x0 x1 := by
  unfold image.Rect
  by_cases h : x0 > x1 <;> by_cases h2 : y0 > y1 <;> simp [h, h2] <;> omega

theorem Rect_Min_Y (x0 y0 x1 y1 : Int) : (image.Rect x0 y0 x1 y1).Min.Y = min y0 y1 := by
  unfold image.Rect
  by_cases h : x0 > x1 <;> by_cases h2 : y0 > y1 <;> simp [h, h2] <;> omega

theorem Rect_Max_Y (x0 y0 x1 y1 : Int) : (image.Rect x0 y0 x1 y1).Max.Y = max y0 y1 := by
  unfold image.Rect
  by_cases h : x0 > x1 <;> by_cases h2 : y0 > y1 <;> simp [h, h2] <;> omega

/-! ## The orchestrator: lemmas -/

theorem DetectFaces_eq_some (env : DetectEnv) (h : (DetectFaces env).isSome = true) :
    DetectFaces env = some env.faces := by
  unfold DetectFaces at *
  cases hi : env.imageOk <;> cases hc : env.cascadeOk <;> cases hu : env.unpackOk <;>
    simp_all

theorem handleLoop_cons_ok (h : Upload) (rest : List Upload) (st : LoopState)
    (hok : h.succeeds = true) :
    handleLoop (h :: rest) st = handleLoop rest (stepOk st h) := by
  simp only [Upload.succeeds, Bool.and_eq_true] at hok
  obtain ⟨⟨⟨⟨⟨ho, ht⟩, hc⟩, hd⟩, hdo⟩, hdr⟩ := hok
  obtain ⟨suffix, hs⟩ := Option.isSome_iff_exists.mp ht
  have hdet := DetectFaces_eq_some h.detect hd
  simp [handleLoop, ho, hs, hc, hdet, DrawFaces_err, DrawFaces_rects, DrawFaces_fs, DrawFaces_created,
    hdo, hdr,
    stepOk, Upload.tmpfile, Upload.jpgfile, Upload.result]

theorem handleLoop_append_ok (pre rest : List Upload) (st : LoopState)
    (hok : ∀ h ∈ pre, h.succeeds = true) :
    handleLoop (pre ++ rest) st = handleLoop rest (pre.foldl stepOk st) := by
  induction pre generalizing st with
  | nil => rfl
  | cons h pre ih =>
    have h1 := hok h (List.mem_cons_self _ _)
    have h2 : ∀ u ∈ pre, u.succeeds = true := fun u hu => hok u (List.mem_cons_of_mem _ hu)
    simp [handleLoop_cons_ok _ _ _ h1, ih _ h2]

theorem handleLoop_cons_fail (h : Upload) (rest : List Upload) (st : LoopState)
    (hbad : h.succeeds = false) :
    (∃ msg ∈ failureMessages, (handleLoop (h :: rest) st).1 =
        some ⟨if h.openOk then StatusInternalServerError else StatusBadRequest, .text msg⟩) ∧
      (handleLoop (h :: rest) st).2.trace = st.trace ++ [(h.Filename, st.fs)] ∧
      (∃ ds, (handleLoop (h :: rest) st).2.deferred = ds ++ st.deferred) := by
  cases ho : h.openOk
  · exact ⟨⟨"Failed to get media form file", by simp [failureMessages], by simp [handleLoop, ho]⟩,
      by simp [handleLoop, ho], [], by simp [handleLoop, ho]⟩
  · cases ht : h.tempFile with
    | none =>
      exact ⟨⟨"Unable to create temp file", by simp [failureMessages], by simp [handleLoop, ho, ht]⟩,
        by simp [handleLoop, ho, ht], [.closeFile h.Filename], by simp [handleLoop, ho, ht]⟩
    | some suffix =>
      cases hc : h.copyOk
      · exact ⟨⟨"Unable to copy file to tmp folder", by simp [failureMessages], by simp [handleLoop, ho, ht, hc]⟩,
          by simp [handleLoop, ho, ht, hc], [.closeFile h.Filename],
          by simp [handleLoop, ho, ht, hc]⟩
      · cases hd : DetectFaces h.detect with
        | none =>
          exact ⟨⟨"Error on face detection", by simp [failureMessages], by simp [handleLoop, ho, ht, hc, hd]⟩,
            by simp [handleLoop, ho, ht, hc, hd],
            [.removeFile (.upload suffix), .closeFile h.Filename],
            by simp [handleLoop, ho, ht, hc, hd]⟩
        | some faces =>
          have herr : (DrawFaces (Files.create (Path.upload suffix) st.fs) h.draw faces false).err
              = true := by
            rw [DrawFaces_err]
            simp [Upload.succeeds, ho, ht, hc, hd] at hbad
            cases hdo : h.draw.openOk <;> simp_all
          exact ⟨⟨"Error creating image output", by simp [failureMessages], by simp [handleLoop, ho, ht, hc, hd, herr]⟩,
            by simp [handleLoop, ho, ht, hc, hd, herr],
            [.removeFile (.upload suffix), .closeFile h.Filename],
            by simp [handleLoop, ho, ht, hc, hd, herr]⟩

theorem foldl_stepOk_outcome (pre : List Upload) (st : LoopState) :
    (pre.foldl stepOk st).outcome = st.outcome ++ pre.map Upload.result := by
  induction pre generalizing st with
  | nil => simp
  | cons h pre ih => simp [ih, stepOk]

theorem foldl_stepOk_numImages (pre : List Upload) (st : LoopState) :
    (pre.foldl stepOk st).numImages = st.numImages + pre.length := by
  induction pre generalizing st with
  | nil => simp
  | cons h pre ih => simp [ih, stepOk]; omega

theorem foldl_stepOk_trace_names (pre : List Upload) (st : LoopState) :
    (pre.foldl stepOk st).trace.map Prod.fst =
      st.trace.map Prod.fst ++ pre.map Upload.Filename := by
  induction pre generalizing st with
  | nil => simp
  | cons h pre ih => simp [ih, stepOk]

theorem foldl_stepOk_trace_length (pre : List Upload) (st : LoopState) :
    (pre.foldl stepOk st).trace.length = st.trace.length + pre.length := by
  have h := congrArg List.length (foldl_stepOk_trace_names pre st)
  simpa using h

theorem Handle_eq (r : Request) (form : Form) (kvs : List (String × List Upload))
    (us : List Upload) (fs : Files) (hp : r.parseErr = none)
    (hf : r.MultipartForm = some form) (hm : form.File = some kvs)
    (hl : kvs.lookup "image" = some us) :
    Handle r fs =
      match (handleLoop us ⟨fs, [], [], 0, [], []⟩).1 with
      | some resp =>
        ⟨resp, runDeferred (handleLoop us ⟨fs, [], [], 0, [], []⟩).2.deferred
          (handleLoop us ⟨fs, [], [], 0, [], []⟩).2.fs,
          (handleLoop us ⟨fs, [], [], 0, [], []⟩).2.trace,
          (handleLoop us ⟨fs, [], [], 0, [], []⟩).2.created⟩
      | none =>
        match r.marshalErr with
        | some msg =>
          ⟨⟨StatusInternalServerError, .text ("Error encoding output: " ++ msg)⟩,
            runDeferred (handleLoop us ⟨fs, [], [], 0, [], []⟩).2.deferred
              (handleLoop us ⟨fs, [], [], 0, [], []⟩).2.fs,
            (handleLoop us ⟨fs, [], [], 0, [], []⟩).2.trace,
            (handleLoop us ⟨fs, [], [], 0, [], []⟩).2.created⟩
        | none =>
          ⟨⟨StatusOK, .json ⟨"success", r.totalTime,
              (handleLoop us ⟨fs, [], [], 0, [], []⟩).2.numImages,
              (handleLoop us ⟨fs, [], [], 0, [], []⟩).2.outcome⟩⟩,
            runDeferred (handleLoop us ⟨fs, [], [], 0, [], []⟩).2.deferred
              (handleLoop us ⟨fs, [], [], 0, [], []⟩).2.fs,
            (handleLoop us ⟨fs, [], [], 0, [], []⟩).2.trace,
            (handleLoop us ⟨fs, [], [], 0, [], []⟩).2.created⟩ := by
  simp only [Handle, hp, hf, hm, verifyRequest, mapLookup, hl, Option.getD_some]

/-! ## The annotator: rectangles -/

/-- C1 fails on the code: for the detection with row 100, column 100, scale 20
and score 10 (above the threshold) the rectangle stroked on the image has
x = 90, y = 90, width 20 and height 20, while the rectangle `DrawFaces`
returns for it, built from the same four values, has Min = (20, 20) and
Max = (90, 90): its Min.X is not col - scale/2 = 90 and its Max.X is not
scale = 20. -/
theorem DrawFaces_rect_swapped :
    F32.gt (F32.finite 10) qThresh = true ∧
    (DrawFaces [] ⟨0, true, true⟩ [⟨100, 100, 20, .finite 10⟩] false).strokes =
      [.rectangle 90 90 20 20] ∧
    (DrawFaces [] ⟨0, true, true⟩ [⟨100, 100, 20, .finite 10⟩] false).rects =
      [⟨⟨20, 20⟩, ⟨90, 90⟩⟩] ∧
    goSub 100 (goDiv 20 2) = 90 ∧
    ¬ ((⟨⟨20, 20⟩, ⟨90, 90⟩⟩ : image.Rectangle).Min.X = goSub 100 (goDiv 20 2) ∧
       (⟨⟨20, 20⟩, ⟨90, 90⟩⟩ : image.Rectangle).Max.X = 20) := by
  decide

/-- C10: every rectangle `DrawFaces` returns is well-formed, whatever the
integers row, col and scale of the detections: Min.X <= Max.X, Min.Y <= Max.Y,
and it comes from a detection above the threshold of which its coordinates
are, per axis, the minimum and the maximum of (col - scale/2, scale) for X and
of (row - scale/2, scale) for Y. -/
theorem DrawFaces_rects_well_formed (fs : Files) (env : DrawEnv) (faces : List Detection)
    (isCircle : Bool) (r : image.Rectangle)
    (hr : r ∈ (DrawFaces fs env faces isCircle).rects) :
    r.Min.X ≤ r.Max.X ∧ r.Min.Y ≤ r.Max.Y ∧
    ∃ face ∈ faces, F32.gt face.Q qThresh = true ∧
      r.Min.X = min (goSub face.Col (goDiv face.Scale 2)) face.Scale ∧
      r.Max.X = max (goSub face.Col (goDiv face.Scale 2)) face.Scale ∧
      r.Min.Y = min (goSub face.Row (goDiv face.Scale 2)) face.Scale ∧
      r.Max.Y = max (goSub face.Row (goDiv face.Scale 2)) face.Scale := by
  rw [DrawFaces_rects] at hr
  cases ho : env.openOk
  · simp [ho] at hr
  · simp only [ho, if_true, List.mem_map, aboveThreshold, List.mem_filter] at hr
    obtain ⟨face, ⟨hmem, hq⟩, rfl⟩ := hr
    refine ⟨?_, ?_, face, hmem, hq, ?_, ?_, ?_, ?_⟩
    · simp only [faceRect, Rect_Min_X, Rect_Max_X]
      exact le_trans (min_le_left _ _) (le_max_left _ _)
    · simp only [faceRect, Rect_Min_Y, Rect_Max_Y]
      exact le_trans (min_le_left _ _) (le_max_left _ _)
    · simp only [faceRect, Rect_Min_X]
    · simp only [faceRect, Rect_Max_X]
    · simp only [faceRect, Rect_Min_Y]
    · simp only [faceRect, Rect_Max_Y]

/-- Witness of `DrawFaces_rects_well_formed`: the rectangle returned for the
detection with row 100, column -7, scale -20 and score 6. -/
theorem DrawFaces_rects_well_formed_witness :
    (⟨⟨-20, -20⟩, ⟨3, 110⟩⟩ : image.Rectangle) ∈
      (DrawFaces [] ⟨0, true, true⟩
        [⟨1, 1, 1, .nan⟩, ⟨100, -7, -20, .finite 6⟩] false).rects ∧
    ((-20 : Int) ≤ 3 ∧ (-20 : Int) ≤ 110 ∧
      ∃ face ∈ [(⟨1, 1, 1, .nan⟩ : Detection), ⟨100, -7, -20, .finite 6⟩],
        F32.gt face.Q qThresh = true ∧
        (-20 : Int) = min (goSub face.Col (goDiv face.Scale 2)) face.Scale ∧
        (3 : Int) = max (goSub face.Col (goDiv face.Scale 2)) face.Scale ∧
        (-20 : Int) = min (goSub face.Row (goDiv face.Scale 2)) face.Scale ∧
        (110 : Int) = max (goSub face.Row (goDiv face.Scale 2)) face.Scale) :=
  ⟨by decide,
    DrawFaces_rects_well_formed [] ⟨0, true, true⟩
      [⟨1, 1, 1, .nan⟩, ⟨100, -7, -20, .finite 6⟩] false ⟨⟨-20, -20⟩, ⟨3, 110⟩⟩ (by decide)⟩

/-- C7: `DrawFaces` returns the rectangles in the order of the detections it
is given, one per detection above the threshold: the rectangle list for `a`
followed by `b` is the rectangle list for `a` followed by the rectangle list
for `b`, and (once the output file is open) the result is the list of the
per-detection rectangles of the detections with Q > 5.0, in input order. -/
theorem DrawFaces_rects_append (fs : Files) (env : DrawEnv) (a b : List Detection)
    (isCircle : Bool) :
    (DrawFaces fs env (a ++ b) isCircle).rects =
      (DrawFaces fs env a isCircle).rects ++ (DrawFaces fs env b isCircle).rects ∧
    (env.openOk = true →
      (DrawFaces fs env a isCircle).rects =
        (a.filter (fun face => F32.gt face.Q qThresh)).map faceRect) := by
  constructor
  · simp only [DrawFaces_rects]
    cases env.openOk <;> simp [aboveThreshold]
  · intro ho
    simp [DrawFaces_rects, ho, aboveThreshold]

/-- Witness of `DrawFaces_rects_append`: three detections, the middle one
below the threshold. -/
theorem DrawFaces_rects_append_witness :
    (DrawFaces [] ⟨0, true, true⟩
        ([⟨10, 30, 20, .finite 10⟩, ⟨5, 5, 8, .finite 5⟩] ++ [⟨100, 100, 20, .posInf⟩])
        false).rects =
      (DrawFaces [] ⟨0, true, true⟩
        [⟨10, 30, 20, .finite 10⟩, ⟨5, 5, 8, .finite 5⟩] false).rects ++
      (DrawFaces [] ⟨0, true, true⟩ [⟨100, 100, 20, .posInf⟩] false).rects ∧
    (DrawFaces [] ⟨0, true, true⟩
        [⟨10, 30, 20, .finite 10⟩, ⟨5, 5, 8, .finite 5⟩] false).rects =
      ([(⟨10, 30, 20, .finite 10⟩ : Detection), ⟨5, 5, 8, .finite 5⟩].filter
        (fun face => F32.gt face.Q qThresh)).map faceRect :=
  have h := DrawFaces_rects_append [] ⟨0, true, true⟩
    [⟨10, 30, 20, .finite 10⟩, ⟨5, 5, 8, .finite 5⟩] [⟨100, 100, 20, .posInf⟩] false
  ⟨h.1, h.2 rfl⟩

/-! ## The orchestrator: responses -/

theorem Handle_all_ok (r : Request) (form : Form) (kvs : List (String × List Upload))
    (us : List Upload) (fs : Files) (hp : r.parseErr = none)
    (hf : r.MultipartForm = some form) (hm : form.File = some kvs)
    (hl : kvs.lookup "image" = some us) (hok : ∀ h ∈ us, h.succeeds = true)
    (hj : r.marshalErr = none) :
    (Handle r fs).resp =
      ⟨StatusOK, .json ⟨"success", r.totalTime, us.length, us.map Upload.result⟩⟩ := by
  have hloop := handleLoop_append_ok us [] ⟨fs, [], [], 0, [], []⟩ hok
  rw [List.append_nil] at hloop
  rw [Handle_eq r form kvs us fs hp hf hm hl, hloop]
  simp [handleLoop, hj, foldl_stepOk_outcome, foldl_stepOk_numImages]

/-- C2: the number of rectangles `DrawFaces` returns (once its output file is
open, in particular whenever it returns no error) equals the number of
detections whose score is strictly greater than 5.0; when no detection is
above the threshold the rectangle list is empty, and a request with one such
image for which every stage succeeds is answered with TotalFaces 0 and no
Faces. -/
theorem DrawFaces_rects_count (fs : Files) (env : DrawEnv) (faces : List Detection)
    (isCircle : Bool) (ho : env.openOk = true) :
    (DrawFaces fs env faces isCircle).rects.length =
      faces.countP (fun face => F32.gt face.Q qThresh) ∧
    ((∀ face ∈ faces, F32.gt face.Q qThresh = false) →
      (DrawFaces fs env faces isCircle).rects = [] ∧
      ∀ (r : Request) (form : Form) (kvs : List (String × List Upload)) (h : Upload)
        (fs0 : Files), r.parseErr = none → r.MultipartForm = some form →
        form.File = some kvs → kvs.lookup "image" = some [h] → r.marshalErr = none →
        h.succeeds = true → h.detect.faces = faces →
        (Handle r fs0).resp =
          ⟨StatusOK, .json ⟨"success", r.totalTime, 1, [⟨h.Filename, 0, [], h.elapsed⟩]⟩⟩) := by
  refine ⟨?_, ?_⟩
  · simp [DrawFaces_rects, ho, aboveThreshold, List.countP_eq_length_filter]
  · intro hnone
    have hempty : aboveThreshold faces = [] := by
      simp only [aboveThreshold, List.filter_eq_nil_iff]
      intro face hface
      simp [hnone face hface]
    refine ⟨by simp [DrawFaces_rects, ho, hempty], ?_⟩
    intro r form kvs h fs0 hp hf hm hl hj hok hfaces
    have hall : ∀ u ∈ [h], u.succeeds = true := by
      intro u hu
      rw [List.mem_singleton.mp hu]
      exact hok
    rw [Handle_all_ok r form kvs [h] fs0 hp hf hm hl hall hj]
    simp [Upload.result, hfaces, hempty]

/-- Witness of `DrawFaces_rects_count`: two detections at or below the
threshold and a NaN score, alone in a one-image request. -/
theorem DrawFaces_rects_count_witness :
    (DrawFaces [] ⟨0, true, true⟩ quietFaces false).rects.length =
      quietFaces.countP (fun face => F32.gt face.Q qThresh) ∧
    (DrawFaces [] ⟨0, true, true⟩ quietFaces false).rects = [] ∧
    (Handle (sampleRequest [sampleUpload "a.jpg" "1" 7 quietFaces]) []).resp =
      ⟨StatusOK, .json ⟨"success", "2ms", 1, [⟨"a.jpg", 0, [], "1ms"⟩]⟩⟩ :=
  have h := DrawFaces_rects_count [] ⟨0, true, true⟩ quietFaces false rfl
  ⟨h.1, (h.2 (by decide)).1,
    (h.2 (by decide)).2 (sampleRequest [sampleUpload "a.jpg" "1" 7 quietFaces])
      ⟨some [("image", [sampleUpload "a.jpg" "1" 7 quietFaces])]⟩
      [("image", [sampleUpload "a.jpg" "1" 7 quietFaces])]
      (sampleUpload "a.jpg" "1" 7 quietFaces) []
      rfl rfl rfl (by simp [List.lookup]) rfl (by decide) rfl⟩

/-- C6: when every stage succeeds for each of the n entries under `image`
(and the result is encoded), `Handle` answers with status 200 and a `Result`
with Status "success", TotalImages n and n Data entries in upload order, the
i-th carrying the i-th upload's filename and a TotalFaces equal to the length
of its Faces. -/
theorem Handle_success (r : Request) (form : Form) (kvs : List (String × List Upload))
    (us : List Upload) (fs : Files) (hp : r.parseErr = none)
    (hf : r.MultipartForm = some form) (hm : form.File = some kvs)
    (hl : kvs.lookup "image" = some us) (hok : ∀ h ∈ us, h.succeeds = true)
    (hj : r.marshalErr = none) :
    ∃ res : Result, (Handle r fs).resp = ⟨StatusOK, .json res⟩ ∧
      res.Status = "success" ∧ res.TotalImages = us.length ∧
      res.Data.length = us.length ∧
      res.Data.map DetectionResult.ImageName = us.map Upload.Filename ∧
      ∀ d ∈ res.Data, d.TotalFaces = d.Faces.length := by
  refine ⟨_, Handle_all_ok r form kvs us fs hp hf hm hl hok hj, rfl, rfl, by simp, ?_, ?_⟩
  · simp [Upload.result, Function.comp_def]
  · intro d hd
    simp only [List.mem_map] at hd
    obtain ⟨u, _, rfl⟩ := hd
    rfl

/-- Witness of `Handle_success`: a request with two images, one face above the
threshold in the first. -/
theorem Handle_success_witness :
    ∃ res : Result,
      (Handle (sampleRequest twoUploads) []).resp = ⟨StatusOK, .json res⟩ ∧
      res.Status = "success" ∧ res.TotalImages = twoUploads.length ∧
      res.Data.length = twoUploads.length ∧
      res.Data.map DetectionResult.ImageName = twoUploads.map Upload.Filename ∧
      ∀ d ∈ res.Data, d.TotalFaces = d.Faces.length :=
  Handle_success (sampleRequest twoUploads) ⟨some [("image", twoUploads)]⟩
    [("image", twoUploads)] twoUploads [] rfl rfl rfl (by simp [List.lookup]) (by decide) rfl

/-- C3: when some stage fails for an entry, all stages having succeeded for
the entries before it, `Handle` answers with one of the fixed error messages
of its loop, never with the JSON body: status 400 when the entry cannot be
opened and status 500 when the temp file cannot be created, the copy fails,
detection fails or annotation fails; the iterations it started are those of
the entries up to the failing one, so no later image is processed. -/
theorem Handle_fail_fast (r : Request) (form : Form) (kvs : List (String × List Upload))
    (pre : List Upload) (bad : Upload) (post : List Upload) (fs : Files)
    (hp : r.parseErr = none) (hf : r.MultipartForm = some form) (hm : form.File = some kvs)
    (hl : kvs.lookup "image" = some (pre ++ bad :: post))
    (hok : ∀ h ∈ pre, h.succeeds = true) (hbad : bad.succeeds = false) :
    (∃ msg ∈ failureMessages, (Handle r fs).resp =
      ⟨if bad.openOk then StatusInternalServerError else StatusBadRequest, .text msg⟩) ∧
    (∀ res : Result, (Handle r fs).resp.body ≠ .json res) ∧
    (Handle r fs).trace.map Prod.fst = (pre ++ [bad]).map Upload.Filename := by
  have hloop := handleLoop_append_ok pre (bad :: post) ⟨fs, [], [], 0, [], []⟩ hok
  obtain ⟨⟨msg, hmsg, hresp⟩, htrace, _⟩ :=
    handleLoop_cons_fail bad post (pre.foldl stepOk ⟨fs, [], [], 0, [], []⟩) hbad
  have hH := Handle_eq r form kvs (pre ++ bad :: post) fs hp hf hm hl
  rw [hloop, hresp] at hH
  simp only at hH
  refine ⟨⟨msg, hmsg, by rw [hH]⟩, ?_, ?_⟩
  · intro res
    rw [hH]
    simp
  · rw [hH]
    simp only [htrace, List.map_append, foldl_stepOk_trace_names]
    simp

/-- Witness of `Handle_fail_fast`: the copy of the second of three entries
fails. -/
theorem Handle_fail_fast_witness :
    (∃ msg ∈ failureMessages, (Handle (sampleRequest brokenBatch) []).resp =
      ⟨StatusInternalServerError, .text msg⟩) ∧
    (∀ res : Result, (Handle (sampleRequest brokenBatch) []).resp.body ≠ .json res) ∧
    (Handle (sampleRequest brokenBatch) []).trace.map Prod.fst = ["a.jpg", "b.jpg"] :=
  Handle_fail_fast (sampleRequest brokenBatch) ⟨some [("image", brokenBatch)]⟩
    [("image", brokenBatch)] [sampleUpload "a.jpg" "1" 7 [⟨100, 100, 20, .finite 10⟩]]
    ⟨"b.jpg", true, some "2", false, ⟨true, true, true, []⟩, ⟨8, true, true⟩, "1ms"⟩
    [sampleUpload "c.jpg" "3" 9 []] [] rfl rfl rfl (by simp [List.lookup, brokenBatch])
    (by decide) (by decide)

/-- C4 fails on the code: for a request whose file map has the key `image`
bound to an empty list of entries, `verifyRequest` returns no error and
`Handle`, creating no temp file, answers with status 200 and the success body
(TotalImages 0) instead of a client error. -/
theorem Handle_empty_image_list_succeeds :
    mapLookup (some [("image", [])]) "image" = some [] ∧
    verifyRequest ⟨some [("image", [])]⟩ = none ∧
    (Handle ⟨none, some ⟨some [("image", [])]⟩, "2ms", none⟩ []).resp =
      ⟨200, .json ⟨"success", "2ms", 0, []⟩⟩ ∧
    (Handle ⟨none, some ⟨some [("image", [])]⟩, "2ms", none⟩ []).resp.status ≠ 400 ∧
    (Handle ⟨none, some ⟨some [("image", [])]⟩, "2ms", none⟩ []).created = [] := by
  decide

theorem Handle_zero_entries_of_parsed_form (r : Request) (form : Form)
    (kvs : List (String × List Upload)) (fs : Files) (hp : r.parseErr = none)
    (hf : r.MultipartForm = some form) (hm : form.File = some kvs)
    (hparsed : ∀ us, kvs.lookup "image" = some us → us ≠ [])
    (hzero : (kvs.lookup "image").getD [] = []) :
    (Handle r fs).resp = ⟨StatusBadRequest, .text "No image uploaded. Please try again"⟩ ∧
    (Handle r fs).created = [] ∧ (Handle r fs).trace = [] ∧ (Handle r fs).fs = fs := by
  have hl : kvs.lookup "image" = none := by
    cases hlk : kvs.lookup "image" with
    | none => rfl
    | some us =>
      rw [hlk] at hzero
      exact absurd (by simpa using hzero) (hparsed us hlk)
  simp [Handle, hp, hf, hm, verifyRequest, mapLookup, hl]

/-- C5: `Handle` answers with status 400 before any image is processed (no
iteration started, no file created, the file set untouched) if the body cannot
be parsed as multipart form data, if the request has no multipart form or no
file map, or if the file map has no key `image`; and `verifyRequest` returns
an error exactly when the key `image` is absent from the file map. -/
theorem Handle_rejects_malformed (r : Request) (fs : Files) (form0 : Form)
    (hbad : r.parseErr.isSome = true ∨ r.MultipartForm = none ∨
      ∃ form, r.MultipartForm = some form ∧
        (form.File = none ∨ ∃ kvs, form.File = some kvs ∧ kvs.lookup "image" = none)) :
    ((Handle r fs).resp.status = StatusBadRequest ∧
      (∃ msg, (Handle r fs).resp.body = .text msg) ∧
      (Handle r fs).trace = [] ∧ (Handle r fs).created = [] ∧ (Handle r fs).fs = fs) ∧
    ((verifyRequest form0).isSome = true ↔ mapLookup form0.File "image" = none) := by
  constructor
  · cases hp : r.parseErr with
    | some msg => simp [Handle, hp]
    | none =>
      cases hf : r.MultipartForm with
      | none => simp [Handle, hp, hf]
      | some form =>
        cases hm : form.File with
        | none => simp [Handle, hp, hf, hm]
        | some kvs =>
          have hl : kvs.lookup "image" = none := by
            rcases hbad with h | h | ⟨form1, h1, h2⟩
            · simp [hp] at h
            · simp [hf] at h
            · rw [hf] at h1
              cases h1
              rcases h2 with h2 | ⟨kvs1, h3, h4⟩
              · simp [hm] at h2
              · rw [hm] at h3
                cases h3
                exact h4
          simp [Handle, hp, hf, hm, verifyRequest, mapLookup, hl]
  · unfold verifyRequest
    cases mapLookup form0.File "image" <;> simp

/-- Witness of `Handle_rejects_malformed`: a request whose file map has the
key `file` only. -/
theorem Handle_rejects_malformed_witness :
    ((Handle ⟨none, some ⟨some [("file", twoUploads)]⟩, "2ms", none⟩ []).resp.status =
        StatusBadRequest ∧
      (∃ msg, (Handle ⟨none, some ⟨some [("file", twoUploads)]⟩, "2ms", none⟩ []).resp.body =
        .text msg) ∧
      (Handle ⟨none, some ⟨some [("file", twoUploads)]⟩, "2ms", none⟩ []).trace = [] ∧
      (Handle ⟨none, some ⟨some [("file", twoUploads)]⟩, "2ms", none⟩ []).created = [] ∧
      (Handle ⟨none, some ⟨some [("file", twoUploads)]⟩, "2ms", none⟩ []).fs = []) ∧
    ((verifyRequest ⟨some [("image", twoUploads)]⟩).isSome = true ↔
      mapLookup (some [("image", twoUploads)]) "image" = none) :=
  Handle_rejects_malformed ⟨none, some ⟨some [("file", twoUploads)]⟩, "2ms", none⟩ []
    ⟨some [("image", twoUploads)]⟩
    (Or.inr (Or.inr ⟨⟨some [("file", twoUploads)]⟩, rfl,
      Or.inr ⟨[("file", twoUploads)], rfl, by simp [List.lookup]⟩⟩))

/-! ## The orchestrator: temp files -/

theorem Files.mem_create (p q : Path) (fs : Files) :
    q ∈ Files.create p fs ↔ q = p ∨ q ∈ fs := by
  unfold Files.create
  by_cases h : p ∈ fs
  · simp only [h, if_true]
    constructor
    · exact fun hq => Or.inr hq
    · rintro (rfl | hq)
      · exact h
      · exact hq
  · simp [h]

theorem Files.mem_remove (p q : Path) (fs : Files) :
    q ∈ Files.remove p fs ↔ q ∈ fs ∧ q ≠ p := by
  simp [Files.remove]

theorem runDeferred_subset (ds : List Deferred) (fs : Files) (q : Path)
    (hq : q ∈ runDeferred ds fs) : q ∈ fs := by
  induction ds generalizing fs with
  | nil => exact hq
  | cons d ds ih =>
    cases d with
    | closeFile name => exact ih fs hq
    | removeFile p => exact ((Files.mem_remove p q fs).mp (ih _ hq)).1

theorem runDeferred_removes (ds : List Deferred) (fs : Files) (p : Path)
    (hp : Deferred.removeFile p ∈ ds) : p ∉ runDeferred ds fs := by
  induction ds generalizing fs with
  | nil => simp at hp
  | cons d ds ih =>
    rcases List.mem_cons.mp hp with rfl | hmem
    · intro hin
      exact ((Files.mem_remove p p fs).mp (runDeferred_subset ds _ p hin)).2 rfl
    · cases d with
      | closeFile name => exact ih fs hmem
      | removeFile q => exact ih _ hmem

theorem handleLoop_extends (us : List Upload) (st : LoopState) :
    (∃ ds, (handleLoop us st).2.deferred = ds ++ st.deferred) ∧
    (∃ k, k ≤ us.length ∧ ∃ t, t.map Prod.fst = (us.take k).map Upload.Filename ∧
      (handleLoop us st).2.trace = st.trace ++ t) := by
  induction us generalizing st with
  | nil => exact ⟨⟨[], rfl⟩, 0, le_refl _, [], rfl, by simp [handleLoop]⟩
  | cons h rest ih =>
    cases hs : h.succeeds
    · obtain ⟨_, htrace, hdef⟩ := handleLoop_cons_fail h rest st hs
      exact ⟨hdef, 1, by simp, [(h.Filename, st.fs)], by simp, htrace⟩
    · rw [handleLoop_cons_ok h rest st hs]
      obtain ⟨⟨ds, hds⟩, k, hk, t, ht, htrace⟩ := ih (stepOk st h)
      refine ⟨⟨ds ++ [.removeFile h.tmpfile, .closeFile h.Filename], ?_⟩, k + 1, by simpa using hk,
        (h.Filename, st.fs) :: t, by simp [ht], ?_⟩
      · rw [hds]
        simp [stepOk]
      · rw [htrace]
        simp [stepOk]

theorem handleLoop_cons_trace (h : Upload) (rest : List Upload) (st : LoopState) :
    ∃ t, (handleLoop (h :: rest) st).2.trace = st.trace ++ (h.Filename, st.fs) :: t := by
  cases hs : h.succeeds
  · exact ⟨[], (handleLoop_cons_fail h rest st hs).2.1⟩
  · rw [handleLoop_cons_ok h rest st hs]
    obtain ⟨_, _, t, _, htrace⟩ := (handleLoop_extends rest (stepOk st h)).2
    exact ⟨t, by rw [htrace]; simp [stepOk]⟩

theorem Handle_fs (r : Request) (form : Form) (kvs : List (String × List Upload))
    (us : List Upload) (fs : Files) (hp : r.parseErr = none)
    (hf : r.MultipartForm = some form) (hm : form.File = some kvs)
    (hl : kvs.lookup "image" = some us) :
    (Handle r fs).fs = runDeferred (handleLoop us ⟨fs, [], [], 0, [], []⟩).2.deferred
        (handleLoop us ⟨fs, [], [], 0, [], []⟩).2.fs ∧
    (Handle r fs).trace = (handleLoop us ⟨fs, [], [], 0, [], []⟩).2.trace ∧
    (Handle r fs).created = (handleLoop us ⟨fs, [], [], 0, [], []⟩).2.created := by
  rw [Handle_eq r form kvs us fs hp hf hm hl]
  cases (handleLoop us ⟨fs, [], [], 0, [], []⟩).1 with
  | some resp => exact ⟨rfl, rfl, rfl⟩
  | none => cases r.marshalErr <;> exact ⟨rfl, rfl, rfl⟩

theorem Cleaned_defer (c : List Path) (d : List Deferred) (fs : Files) (x : Deferred)
    (h : Cleaned c d fs) : Cleaned c (x :: d) fs := by
  intro p hp
  rcases h p hp with h1 | h2
  · exact Or.inl (List.mem_cons_of_mem _ h1)
  · exact Or.inr h2

theorem Cleaned_tmpfile (c : List Path) (d : List Deferred) (fs : Files) (suffix : String)
    (h : Cleaned c d fs) :
    Cleaned (c ++ [.upload suffix]) (.removeFile (.upload suffix) :: d)
      (Files.create (.upload suffix) fs) := by
  intro p hp
  rcases List.mem_append.mp hp with hp | hp
  · rcases h p hp with h1 | ⟨⟨n, rfl⟩, h2⟩
    · exact Or.inl (List.mem_cons_of_mem _ h1)
    · refine Or.inr ⟨⟨n, rfl⟩, ?_⟩
      rw [Files.mem_create]
      rintro (h3 | h3)
      · cases h3
      · exact h2 h3
  · rw [List.mem_singleton.mp hp]
    exact Or.inl (List.mem_cons_self _ _)

theorem Cleaned_jpgfile (c : List Path) (d : List Deferred) (fs : Files) (n : Int)
    (h : Cleaned c d fs) :
    Cleaned (c ++ [.annotated n]) d
      (Files.remove (.annotated n) (Files.create (.annotated n) fs)) := by
  intro p hp
  rcases List.mem_append.mp hp with hp | hp
  · rcases h p hp with h1 | ⟨hn, h2⟩
    · exact Or.inl h1
    · refine Or.inr ⟨hn, ?_⟩
      rw [Files.mem_remove, Files.mem_create]
      rintro ⟨h3 | h3, h4⟩
      · exact h4 h3
      · exact h2 h3
  · rw [List.mem_singleton.mp hp]
    refine Or.inr ⟨⟨n, rfl⟩, ?_⟩
    rw [Files.mem_remove]
    exact fun h3 => h3.2 rfl

theorem handleLoop_cleaned (us : List Upload) (st : LoopState)
    (hcopy : ∀ h ∈ us, h.copyOk = true) (hst : Cleaned st.created st.deferred st.fs) :
    Cleaned (handleLoop us st).2.created (handleLoop us st).2.deferred
      (handleLoop us st).2.fs := by
  induction us generalizing st with
  | nil => exact hst
  | cons h rest ih =>
    have hc : h.copyOk = true := hcopy h (List.mem_cons_self _ _)
    have hrest : ∀ u ∈ rest, u.copyOk = true := fun u hu => hcopy u (List.mem_cons_of_mem _ hu)
    cases ho : h.openOk
    · simpa [handleLoop, ho] using hst
    · cases ht : h.tempFile with
      | none => simpa [handleLoop, ho, ht] using Cleaned_defer _ _ _ _ hst
      | some suffix =>
        have h1 := Cleaned_tmpfile _ _ _ suffix (Cleaned_defer _ _ _ (.closeFile h.Filename) hst)
        cases hd : DetectFaces h.detect with
        | none => simpa [handleLoop, ho, ht, hc, hd] using h1
        | some faces =>
          cases hdo : h.draw.openOk
          · simpa [handleLoop, ho, ht, hc, hd, DrawFaces_err, DrawFaces_fs, DrawFaces_created,
              hdo] using h1
          · have h2 := Cleaned_jpgfile _ _ _ h.draw.nanos h1
            cases hdr : h.draw.readOk
            · simpa [handleLoop, ho, ht, hc, hd, DrawFaces_err, DrawFaces_fs,
                DrawFaces_created, hdo, hdr] using h2
            · have hs : h.succeeds = true := by
                simp [Upload.succeeds, ho, ht, hc, hd, hdo, hdr]
              rw [handleLoop_cons_ok h rest st hs]
              apply ih _ hrest
              simpa [stepOk, Upload.tmpfile, Upload.jpgfile, ht] using h2

theorem Handle_cleans_up_unless_copy_fails (r : Request) (form : Form)
    (kvs : List (String × List Upload)) (us : List Upload) (fs : Files)
    (hp : r.parseErr = none) (hf : r.MultipartForm = some form) (hm : form.File = some kvs)
    (hl : kvs.lookup "image" = some us) (hcopy : ∀ h ∈ us, h.copyOk = true) :
    ∀ p ∈ (Handle r fs).created, p ∉ (Handle r fs).fs := by
  obtain ⟨hfs, _, hcr⟩ := Handle_fs r form kvs us fs hp hf hm hl
  intro p hpc
  rw [hcr] at hpc
  rw [hfs]
  have hinit : Cleaned (⟨fs, [], [], 0, [], []⟩ : LoopState).created
      (⟨fs, [], [], 0, [], []⟩ : LoopState).deferred (⟨fs, [], [], 0, [], []⟩ : LoopState).fs := by
    intro q hq
    simp at hq
  rcases handleLoop_cleaned us _ hcopy hinit p hpc with h1 | ⟨_, h2⟩
  · exact runDeferred_removes _ _ p h1
  · exact fun h3 => h2 (runDeferred_subset _ _ p h3)

/-- C8 fails on the copy-failure path: for a request with one entry whose temp
file is created and whose copy then fails, `Handle` answers 500 and returns
before the removal of the temp file is deferred, so the file it created is
still in the file set after the return. -/
theorem Handle_copy_failure_leaves_temp_file :
    (Handle (sampleRequest
        [⟨"a.jpg", true, some "1", false, ⟨true, true, true, []⟩, ⟨7, true, true⟩, "1ms"⟩])
      []).resp = ⟨500, .text "Unable to copy file to tmp folder"⟩ ∧
    (Handle (sampleRequest
        [⟨"a.jpg", true, some "1", false, ⟨true, true, true, []⟩, ⟨7, true, true⟩, "1ms"⟩])
      []).created = [.upload "1"] ∧
    Path.upload "1" ∈ (Handle (sampleRequest
        [⟨"a.jpg", true, some "1", false, ⟨true, true, true, []⟩, ⟨7, true, true⟩, "1ms"⟩])
      []).fs := by
  decide

/-- C9, as stated, fails: in a request with two entries for which every stage
succeeds, the temp file created for the first entry is in the file set at the
moment `Handle` starts processing the second. -/
theorem Handle_temp_file_present_at_next_entry :
    (Handle (sampleRequest twoUploads) []).trace =
      [("a.jpg", []), ("b.jpg", [.upload "1"])] ∧
    (Handle (sampleRequest twoUploads) []).created =
      [.upload "1", .annotated 7, .upload "2", .annotated 8] ∧
    ∃ snapshot, (Handle (sampleRequest twoUploads) []).trace[1]? = some ("b.jpg", snapshot) ∧
      Path.upload "1" ∈ snapshot :=
  ⟨by decide, by decide, [.upload "1"], by decide, by decide⟩

/-- C9 (amended): the images of one batch are handled strictly sequentially,
in upload order, and the removal of each temp file is deferred to the return
of `Handle`: when every stage succeeds for the entries up to entry k, at the
moment `Handle` starts processing entry k+1 the temp file it created for entry
k is still in the file set, and it is no longer there once `Handle` has
returned. -/
theorem Handle_temp_file_kept_until_return (r : Request) (form : Form)
    (kvs : List (String × List Upload)) (pre : List Upload) (h next : Upload)
    (post : List Upload) (fs : Files) (suffix : String)
    (hp : r.parseErr = none) (hf : r.MultipartForm = some form) (hm : form.File = some kvs)
    (hl : kvs.lookup "image" = some (pre ++ h :: next :: post))
    (hok : ∀ u ∈ pre, u.succeeds = true) (hh : h.succeeds = true)
    (hs : h.tempFile = some suffix) :
    (∃ k, k ≤ (pre ++ h :: next :: post).length ∧
      (Handle r fs).trace.map Prod.fst =
        ((pre ++ h :: next :: post).take k).map Upload.Filename) ∧
    (∃ snapshot, (Handle r fs).trace[pre.length + 1]? = some (next.Filename, snapshot) ∧
      Path.upload suffix ∈ snapshot) ∧
    Path.upload suffix ∉ (Handle r fs).fs := by
  obtain ⟨hfs, htr, _⟩ := Handle_fs r form kvs (pre ++ h :: next :: post) fs hp hf hm hl
  have hok2 : ∀ u ∈ pre ++ [h], u.succeeds = true := by
    intro u hu
    rcases List.mem_append.mp hu with hu | hu
    · exact hok u hu
    · rw [List.mem_singleton.mp hu]
      exact hh
  have hloop := handleLoop_append_ok (pre ++ [h]) (next :: post) ⟨fs, [], [], 0, [], []⟩ hok2
  have hlist : pre ++ [h] ++ next :: post = pre ++ h :: next :: post := by simp
  rw [hlist] at hloop
  have htmp : h.tmpfile = Path.upload suffix := by simp [Upload.tmpfile, hs]
  refine ⟨?_, ?_, ?_⟩
  · obtain ⟨k, hk, t, ht, htrace⟩ :=
      (handleLoop_extends (pre ++ h :: next :: post) ⟨fs, [], [], 0, [], []⟩).2
    exact ⟨k, hk, by rw [htr, htrace]; simpa using ht⟩
  · obtain ⟨t, ht⟩ := handleLoop_cons_trace next post ((pre ++ [h]).foldl stepOk
      ⟨fs, [], [], 0, [], []⟩)
    refine ⟨((pre ++ [h]).foldl stepOk ⟨fs, [], [], 0, [], []⟩).fs, ?_, ?_⟩
    · have hlen := foldl_stepOk_trace_length (pre ++ [h]) ⟨fs, [], [], 0, [], []⟩
      simp only [List.length_nil, List.length_append, List.length_singleton, zero_add] at hlen
      rw [htr, hloop, ht, List.getElem?_append_right (by omega), hlen]
      simp
    · rw [List.foldl_append]
      simp only [List.foldl_cons, List.foldl_nil, stepOk, htmp]
      rw [Files.mem_remove, Files.mem_create, Files.mem_create]
      exact ⟨Or.inr (Or.inl rfl), by simp [Upload.jpgfile]⟩
  · rw [hfs, hloop]
    apply runDeferred_removes
    obtain ⟨ds, hds⟩ := (handleLoop_extends (next :: post)
      ((pre ++ [h]).foldl stepOk ⟨fs, [], [], 0, [], []⟩)).1
    rw [hds, List.foldl_append]
    simp [stepOk, htmp]

/-- Witness of `Handle_temp_file_kept_until_return`: the batch of three entries
whose second copy fails, seen from its first entry. -/
theorem Handle_temp_file_kept_until_return_witness :
    (∃ k, k ≤ brokenBatch.length ∧
      (Handle (sampleRequest brokenBatch) []).trace.map Prod.fst =
        (brokenBatch.take k).map Upload.Filename) ∧
    (∃ snapshot, (Handle (sampleRequest brokenBatch) []).trace[1]? =
        some ("b.jpg", snapshot) ∧ Path.upload "1" ∈ snapshot) ∧
    Path.upload "1" ∉ (Handle (sampleRequest brokenBatch) []).fs :=
  Handle_temp_file_kept_until_return (sampleRequest brokenBatch)
    ⟨some [("image", brokenBatch)]⟩ [("image", brokenBatch)] []
    (sampleUpload "a.jpg" "1" 7 [⟨100, 100, 20, .finite 10⟩])
    ⟨"b.jpg", true, some "2", false, ⟨true, true, true, []⟩, ⟨8, true, true⟩, "1ms"⟩
    [sampleUpload "c.jpg" "3" 9 []] [] "1" rfl rfl rfl (by simp [List.lookup, brokenBatch])
    (by decide) (by decide) rfl

end FaasPigo
